import Mathlib

/-!
Verification of the CRUX command mixin (src/service/cmd.py).

The development shallowly embeds the protocol logic of CmdMixin: the
frame codec (struct format "!bQ"), the reader-loop header phase, shape
validation of decoded commands, the dispatcher (process_command), the
sender (send_cmd), the answer helper, and the two waiting primitives
wait_for_cmd and wait_for_answer.  Asynchronous effects (queue puts,
hook invocations, logging, handler calls, writes) are modelled as
explicit effect lists; the scheduler's choices (read outcomes, handler
outcomes, interleaved correlation-table insertions) are explicit
parameters.
-/

/-- Python values as they occur in decoded CRUX commands: the unpickled
object can be any shape, and the validation chain inspects it. -/
inductive PyVal where
  | str (s : String)
  | int (n : Int)
  | bool (b : Bool)
  | pyNone
  | tup (xs : List PyVal)
  | dict (entries : List (PyVal × PyVal))

/-- Python isinstance(v, str). -/
def PyVal.isStr : PyVal → Bool
  | .str _ => true
  | _ => false

/-- Python isinstance(v, int).  In Python, bool is a subclass of int,
so a boolean passes this check. -/
def PyVal.isIntLike : PyVal → Bool
  | .int _ => true
  | .bool _ => true
  | _ => false

/-- Python isinstance(v, dict). -/
def PyVal.isDict : PyVal → Bool
  | .dict _ => true
  | _ => false

/-- Python isinstance(v, tuple). -/
def PyVal.isTuple : PyVal → Bool
  | .tup _ => true
  | _ => false

/-- Python len(v) for a tuple (only used after the isinstance check). -/
def pyLen : PyVal → Nat
  | .tup xs => xs.length
  | _ => 0

/-- Python tuple indexing v[i] (only used after the shape checks);
out-of-range or non-tuple access is given the default None. -/
def pyGet (v : PyVal) (i : Nat) : PyVal :=
  match v with
  | .tup xs => xs.getD i .pyNone
  | _ => .pyNone

/-- The string payload of a PyVal.str, with a default for other shapes. -/
def pyStrVal : PyVal → String
  | .str s => s
  | _ => ""

/-- Python equality v == s against a string: value equality when v is a
string, False otherwise. -/
def pyEqStr (v : PyVal) (s : String) : Bool :=
  match v with
  | .str t => t == s
  | _ => false

/-- Python all(isinstance(key, str) for key in v.keys()) for a dict
(only used after the isinstance dict check). -/
def dictKeysAllStr : PyVal → Bool
  | .dict entries => entries.all (fun kv => kv.1.isStr)
  | _ => false

/-- The Python int value of a validated command id (True equals 1,
False equals 0, since bool is an int subclass). -/
def pyIntVal : PyVal → Int
  | .int n => n
  | .bool b => if b then 1 else 0
  | _ => 0

theorem pyVal_isStr_eq {v : PyVal} (h : v.isStr = true) : v = .str (pyStrVal v) := by
  cases v <;> simp_all [PyVal.isStr, pyStrVal]

/-- Observable side effects of the mixin's methods, in program order:
log records at their levels, hook invocations, queue puts (the item
none is the close sentinel), handler invocations by the dispatcher,
and completed writes of a command to a stream writer. -/
inductive Effect where
  | logDebug
  | logWarning
  | logError
  | logException
  | hook (h : String)
  | qput (item : Option PyVal)
  | handlerCall (cmd : String) (cmdId : Int) (kwargs : PyVal)
  | write (cmd : String) (cmdId : Int) (kwargs : PyVal)

/-- The correlation table self.answers: a Python dict keyed by command
id, modelled as an association list whose insert replaces. -/
abbrev AnswerTable := List (Int × PyVal)

/-- Python self.answers.get-like lookup (the reading half of
self.answers.pop(cmd_id, None)). -/
def lookupAnswer (cmdId : Int) (t : AnswerTable) : Option PyVal :=
  (t.find? (fun kv => kv.1 == cmdId)).map (fun kv => kv.2)

/-- The removing half of self.answers.pop(cmd_id, None). -/
def eraseAnswer (cmdId : Int) (t : AnswerTable) : AnswerTable :=
  t.eraseP (fun kv => kv.1 == cmdId)

/-- Python dict assignment self.answers[cmd_id] = kwargs: replaces any
prior entry for that id. -/
def insertAnswer (cmdId : Int) (v : PyVal) (t : AnswerTable) : AnswerTable :=
  (cmdId, v) :: eraseAnswer cmdId t

theorem lookupAnswer_insertAnswer_self (cmdId : Int) (v : PyVal) (t : AnswerTable) :
    lookupAnswer cmdId (insertAnswer cmdId v t) = some v := by
  simp [lookupAnswer, insertAnswer, List.find?_cons_of_pos]

theorem lookupAnswer_eraseAnswer_ne {k cmdId : Int} (t : AnswerTable) (hne : k ≠ cmdId) :
    lookupAnswer k (eraseAnswer cmdId t) = lookupAnswer k t := by
  induction t with
  | nil => rfl
  | cons kv rest ih =>
    obtain ⟨j, v⟩ := kv
    by_cases hc : j = cmdId
    · subst hc
      have hk : (j == k) = false := by rw [beq_eq_false_iff_ne]; exact fun h => hne h.symm
      simp [eraseAnswer, lookupAnswer, List.eraseP_cons, hk]
    · have hc2 : (j == cmdId) = false := by simp [hc]
      by_cases hjk : j = k
      · subst hjk
        simp [eraseAnswer, lookupAnswer, List.eraseP_cons, hc2]
      · have hk : (j == k) = false := by simp [hjk]
        simp only [eraseAnswer, lookupAnswer, List.eraseP_cons, hc2] at ih ⊢
        simp only [Bool.false_eq_true, if_false, List.find?, hk] at ih ⊢
        exact ih

/-- Big-endian byte encoding on k bytes, as struct.pack produces for
fixed-width unsigned integers. -/
def natToBytesBE : Nat → Nat → List Nat
  | 0, _ => []
  | k + 1, n => natToBytesBE k (n / 256) ++ [n % 256]

/-- Big-endian byte decoding, as struct.unpack performs. -/
def bytesToNatBE (bs : List Nat) : Nat :=
  bs.foldl (fun acc b => acc * 256 + b) 0

theorem natToBytesBE_length (k n : Nat) : (natToBytesBE k n).length = k := by
  induction k generalizing n with
  | zero => rfl
  | succ k ih => simp [natToBytesBE, ih]

theorem foldl_natToBytesBE (k : Nat) (n acc : Nat) (h : n < 256 ^ k) :
    (natToBytesBE k n).foldl (fun a b => a * 256 + b) acc = acc * 256 ^ k + n := by
  induction k generalizing n acc with
  | zero =>
    interval_cases n
    simp [natToBytesBE]
  | succ k ih =>
    have hdiv : n / 256 < 256 ^ k := by
      rw [Nat.div_lt_iff_lt_mul (by norm_num)]
      calc n < 256 ^ (k + 1) := h
        _ = 256 ^ k * 256 := by rw [Nat.pow_succ]
    rw [natToBytesBE, List.foldl_append, ih _ _ hdiv]
    simp only [List.foldl_cons, List.foldl_nil]
    have := Nat.div_add_mod n 256
    rw [Nat.pow_succ]
    ring_nf
    omega

theorem bytesToNatBE_natToBytesBE (k n : Nat) (h : n < 256 ^ k) :
    bytesToNatBE (natToBytesBE k n) = n := by
  simpa using foldl_natToBytesBE k n 0 h

/-- INITIAL_PACKET_SIZE = calcsize("!bQ") = 9: one signed byte and one
big-endian unsigned 64-bit integer. -/
def INITIAL_PACKET_SIZE : Nat := 9

/-- struct.pack(INITIAL_PACKET_FORMAT_STRING, flag, size): network
byte order, a signed char (range checked) and an unsigned long long
(range checked); none models the struct.error raised out of range. -/
def pack_bQ (flag : Int) (size : Nat) : Option (List Nat) :=
  if -128 ≤ flag ∧ flag ≤ 127 ∧ size < 2 ^ 64 then
    some ((flag.emod 256).toNat :: natToBytesBE 8 size)
  else none

/-- struct.unpack(INITIAL_PACKET_FORMAT_STRING, bytes): requires
exactly 9 bytes (none models struct.error), reads the signed first
byte and the big-endian unsigned 64-bit size. -/
def unpack_bQ (bs : List Nat) : Option (Int × Nat) :=
  match bs with
  | b :: rest =>
    if rest.length = 8 then
      some (if b < 128 then (b : Int) else (b : Int) - 256, bytesToNatBE rest)
    else none
  | [] => none

/-- Modelled from the spec (section 3, Trust Mode) and the module
docstring of cmd.py: the MessageMode flag values are 1 (unverified),
2 (signed), 4 (encrypted) and 6 (signed and encrypted); the
MessageMode constructor raises ValueError on any other flag.
service/message.py itself is not among the sources. -/
def validFlag (f : Int) : Bool :=
  f == 1 || f == 2 || f == 4 || f == 6

/-- The framing done by CmdMixin.send_cmd: initial_packet =
pack("!bQ", mode.value, len(encoded)) followed by the payload bytes. -/
def encode_frame (modeValue : Int) (payload : List Nat) : Option (List Nat) :=
  (pack_bQ modeValue payload.length).map (fun hdr => hdr ++ payload)

/-- The header a successful encode_frame produces. -/
def header_bytes (modeValue : Int) (size : Nat) : List Nat :=
  (modeValue.emod 256).toNat :: natToBytesBE 8 size

/-- The header decoding done by CmdMixin.read_commands: unpack the
initial packet with "!bQ", then construct MessageMode(flag), which
rejects unknown flags. -/
def decode_header (bs : List Nat) : Option (Int × Nat) :=
  match unpack_bQ bs with
  | some (flag, size) => if validFlag flag then some (flag, size) else none
  | none => none

/-- How one read of the stream (reader.readexactly) ends: with bytes,
or with one of the exception classes CmdMixin.read_commands handles
separately. -/
inductive ReadOutcome where
  | ok (bs : List Nat)
  | connError
  | cancelled
  | incompleteRead
  | otherExc

/-- Whether the header phase of a reader-loop iteration stops the loop
(the method returns) or proceeds with a decoded flag and size. -/
inductive HeaderStep where
  | stop
  | proceed (flag : Int) (size : Nat)

/-- The header phase of one CmdMixin.read_commands iteration: read
INITIAL_PACKET_SIZE bytes, unpack "!bQ", build MessageMode(flag).
Effects are listed in program order. -/
def read_header_phase (r : ReadOutcome) : HeaderStep × List Effect :=
  match r with
  | .ok bs =>
    match unpack_bQ bs with
    | none => (.stop, [.qput none])
    | some (flag, size) =>
      if validFlag flag then (.proceed flag size, [])
      else (.stop, [.logError, .qput none, .hook "error_read"])
  | .connError => (.stop, [.qput none, .hook "error_read"])
  | .cancelled => (.stop, [.qput none])
  | .incompleteRead => (.stop, [.qput none])
  | .otherExc => (.stop, [.logException, .hook "error_read"])

/-- How a handler invocation ends: normal return, cooperative
cancellation (asyncio.CancelledError), or any other exception. -/
inductive HandlerOutcome where
  | normal
  | cancelled
  | raised

/-- Result of CmdMixin.process_command: the updated correlation table,
the effects in program order, and the exception, if any, escaping the
dispatch into the reader loop. -/
structure ProcessResult where
  answers : AnswerTable
  effects : List Effect
  escaped : Option HandlerOutcome

/-- CmdMixin.process_command.  resolve models the getattr walk for
handle_(cmd) over the service and its parent chain: some o means a
handler was found and its invocation ends with outcome o.  The code
handles "answer" first, then walks; a found handler runs under
try-except clauses that catch CancelledError with pass and any other
exception with an exception log. -/
def process_command (answers : AnswerTable) (resolve : String → Option HandlerOutcome)
    (cmd : String) (cmdId : Int) (kwargs : PyVal) : ProcessResult :=
  if cmd = "answer" then
    { answers := insertAnswer cmdId kwargs answers, effects := [], escaped := none }
  else
    match resolve cmd with
    | none =>
      { answers := answers, effects := [.logWarning], escaped := none }
    | some .normal =>
      { answers := answers, effects := [.handlerCall cmd cmdId kwargs], escaped := none }
    | some .cancelled =>
      { answers := answers, effects := [.handlerCall cmd cmdId kwargs], escaped := none }
    | some .raised =>
      { answers := answers, effects := [.handlerCall cmd cmdId kwargs, .logException],
        escaped := none }

/-- The isinstance chain of CmdMixin.parse_and_process_command, in the
order the code checks: tuple, length 3, cmd[0] a str, cmd[1] an int
(bool included, as in Python), cmd[2] a dict, all dict keys str. -/
def validate_cmd (cmd : PyVal) : Bool :=
  cmd.isTuple && (pyLen cmd == 3) && (pyGet cmd 0).isStr && (pyGet cmd 1).isIntLike
    && (pyGet cmd 2).isDict && dictKeysAllStr (pyGet cmd 2)

/-- The command name of a validated command tuple. -/
def cmd_name (v : PyVal) : String := pyStrVal (pyGet v 0)

/-- The command id of a validated command tuple, as a Python int. -/
def cmd_id_val (v : PyVal) : Int := pyIntVal (pyGet v 1)

/-- The argument dictionary of a validated command tuple. -/
def cmd_args (v : PyVal) : PyVal := pyGet v 2

/-- Result of CmdMixin.parse_and_process_command: the reader's queue
contents, the correlation table, effects in program order, and any
escaping exception. -/
structure ParseResult where
  queue : List (Option PyVal)
  answers : AnswerTable
  effects : List Effect
  escaped : Option HandlerOutcome

/-- CmdMixin.parse_and_process_command: an invalid shape is dropped
with a debug log; a valid command is put on the queue and then handed
to process_command. -/
def parse_and_process_command (queue : List (Option PyVal)) (answers : AnswerTable)
    (resolve : String → Option HandlerOutcome) (cmd : PyVal) : ParseResult :=
  if validate_cmd cmd then
    let p := process_command answers resolve (cmd_name cmd) (cmd_id_val cmd) (cmd_args cmd)
    { queue := queue ++ [some cmd], answers := p.answers,
      effects := Effect.qput (some cmd) :: p.effects, escaped := p.escaped }
  else
    { queue := queue, answers := answers, effects := [.logDebug], escaped := none }

/-- How the transport write inside CmdMixin.send_cmd ends. -/
inductive WriteOutcome where
  | ok
  | connError
  | cancelled
  | otherExc

/-- Result of CmdMixin.send_cmd: effects in program order, whether an
exception is re-raised to the caller, and the id counter afterwards. -/
structure SendResult where
  effects : List Effect
  raised : Bool
  counter : Nat

/-- CmdMixin.send_cmd.  A missing writer (None) models the caller
passing no stream: the attribute access writer.write raises, which the
generic except-clause turns into the error_write hook, an exception
log, and a re-raise.  Connection errors and cancellation invoke the
hook and are swallowed; other write failures invoke the hook, log and
re-raise.  The counter advances only when no explicit cmd_id is
given. -/
def send_cmd (counter : Nat) (writer : Option Unit) (cmdName : String) (args : PyVal)
    (cmdId : Option Int) (w : WriteOutcome) : SendResult :=
  let theId := cmdId.getD (Int.ofNat counter)
  let counter1 := if cmdId.isSome then counter else counter + 1
  match writer with
  | none =>
    { effects := [.hook "error_write", .logException], raised := true, counter := counter1 }
  | some _ =>
    match w with
    | .ok =>
      { effects := [.write cmdName theId args], raised := false, counter := counter1 }
    | .connError =>
      { effects := [.hook "error_write"], raised := false, counter := counter1 }
    | .cancelled =>
      { effects := [.hook "error_write"], raised := false, counter := counter1 }
    | .otherExc =>
      { effects := [.hook "error_write", .logException], raised := true, counter := counter1 }

/-- service.origin.Origin: the command id plus the two connection
endpoints handed to a handler. -/
structure Origin where
  id : Int
  reader : Option Unit
  writer : Option Unit

/-- Result of CmdMixin.answer: effects in program order, whether an
exception escapes to the caller, and the id counter afterwards. -/
structure AnswerCallResult where
  effects : List Effect
  raised : Bool
  counter : Nat

/-- CmdMixin.answer: when origin.writer is None it logs a warning, and
then (the method has no early return) still calls
send_cmd(writer, "answer", args, cmd_id=origin.id). -/
def answer (counter : Nat) (origin : Origin) (args : PyVal) (w : WriteOutcome) :
    AnswerCallResult :=
  let warn : List Effect := if origin.writer.isNone then [.logWarning] else []
  let s := send_cmd counter origin.writer "answer" args (some origin.id) w
  { effects := warn ++ s.effects, raised := s.raised, counter := s.counter }

/-- How the surrounding async-timeout block of CmdMixin.wait_for_cmd
ends once the queue has run empty: the timeout fires, the task is
cancelled, or (timeout None) the waiter blocks forever. -/
inductive Interrupt where
  | timeoutFire
  | cancel
  | blockForever

/-- The Python value CmdMixin.wait_for_cmd produces: it can hang, fall
off the function end (bare None), or return one of the tuples
(None, d), (False, d), (True, d). -/
inductive WaitCmdResult where
  | hangs
  | pyNone
  | pair (status : Option Bool) (args : PyVal)

/-- The match test of wait_for_cmd:
cmd_name == "*" or received[0] == cmd_name. -/
def matches_cmd (cmdName : String) (received : PyVal) : Bool :=
  cmdName == "*" || pyEqStr (pyGet received 0) cmdName

/-- The dequeue loop of CmdMixin.wait_for_cmd, written in the source as
a while loop whose condition is the walrus assignment
received := await queue.get().  The close sentinel None is falsy, so
dequeuing it makes the while condition fail: the loop exits, the
async-with block and the try block are left, and the function falls
off its end, returning bare None; the body's is-None check is dead
code.  items are the queue entries available before the surrounding
async-timeout block ends as intr says. -/
def dequeue_loop (cmdName : String) (items : List (Option PyVal)) (intr : Interrupt) :
    WaitCmdResult × List (Option PyVal) :=
  match items with
  | [] =>
    match intr with
    | .timeoutFire => (.pair (some false) (.dict []), [])
    | .cancel => (.pair (some false) (.dict []), [])
    | .blockForever => (.hangs, [])
  | none :: rest => (.pyNone, rest)
  | some received :: rest =>
    if matches_cmd cmdName received then (.pair (some true) (pyGet received 2), rest)
    else dequeue_loop cmdName rest intr

/-- CmdMixin.wait_for_cmd.  queueExists says whether self.commands
acquires a queue for this reader before the timeout elapses;
hasTimeout says whether the timeout argument is not None.  Returns the
outcome together with the entries left on the queue. -/
def wait_for_cmd (queueExists : Bool) (items : List (Option PyVal)) (hasTimeout : Bool)
    (intr : Interrupt) (cmdName : String) : WaitCmdResult × List (Option PyVal) :=
  if queueExists then dequeue_loop cmdName items intr
  else if hasTimeout then (.pair none (.dict []), []) else (.hangs, [])

/-- The correlation-table insertions the reader loop performs while
wait_for_answer sleeps: one batch per sleep, so the list length is the
number of sleeps the timeout budget allows. -/
abbrev InsertSched := List (List (Int × PyVal))

/-- Apply one batch of reader-loop insertions (each one a dict
assignment self.answers[id] = kwargs) to the correlation table. -/
def applyInserts (t : AnswerTable) (ins : List (Int × PyVal)) : AnswerTable :=
  ins.foldl (fun acc kv => insertAnswer kv.1 kv.2 acc) t

/-- The correlation table as wait_for_answer observes it at its i-th
poll: the initial table after the first i insertion batches. -/
def tableAt (t : AnswerTable) (sched : InsertSched) (i : Nat) : AnswerTable :=
  (sched.take i).foldl applyInserts t

/-- The polling loop of CmdMixin.wait_for_answer:
while (result := self.answers.pop(cmd_id, None)) is None: sleep, and
break once the timeout budget is spent.  The pop is checked before the
first sleep; a hit removes the entry; exhausting sched is the timeout
expiring. -/
def poll_answers (cmdId : Int) (t : AnswerTable) (sched : InsertSched) :
    Option PyVal × AnswerTable :=
  match lookupAnswer cmdId t with
  | some v => (some v, eraseAnswer cmdId t)
  | none =>
    match sched with
    | [] => (none, t)
    | ins :: rest => poll_answers cmdId (applyInserts t ins) rest

/-- The first poll index at which the correlation table holds an entry
for cmdId, if any, among the polls the timeout budget allows. -/
def firstHitIdx (cmdId : Int) (t : AnswerTable) (sched : InsertSched) : Option Nat :=
  (List.range (sched.length + 1)).find?
    (fun i => (lookupAnswer cmdId (tableAt t sched i)).isSome)

/-- Result of CmdMixin.wait_for_answer: the id it assigned, the send
outcome, the returned value, the correlation table afterwards, the id
counter afterwards, and whether an exception from send_cmd escaped. -/
structure WaitAnswerResult where
  sentId : Int
  send : SendResult
  result : Option PyVal
  answers : AnswerTable
  counter : Nat
  escaped : Bool

/-- CmdMixin.wait_for_answer: take a fresh id from the counter, send
the command under that id, then poll the correlation table for it.  If
send_cmd re-raises, the exception propagates and no polling happens. -/
def wait_for_answer (counter : Nat) (answers : AnswerTable) (writer : Option Unit)
    (w : WriteOutcome) (cmdName : String) (args : PyVal) (sched : InsertSched) :
    WaitAnswerResult :=
  let cmdId : Int := Int.ofNat counter
  let s := send_cmd (counter + 1) writer cmdName args (some cmdId) w
  if s.raised then
    { sentId := cmdId, send := s, result := none, answers := answers,
      counter := counter + 1, escaped := true }
  else
    let p := poll_answers cmdId answers sched
    { sentId := cmdId, send := s, result := p.1, answers := p.2,
      counter := counter + 1, escaped := false }

/-- Decoding a well-formed header built by header_bytes recovers the
flag and the size. -/
theorem decode_header_of_header_bytes (m : Int) (hm0 : 0 ≤ m) (hm : m < 128)
    (hv : validFlag m = true)
    (size : Nat) (hs : size < 2 ^ 64) :
    decode_header (header_bytes m size) = some (m, size) := by
  have hemod : m.emod 256 = m := Int.emod_eq_of_lt hm0 (by omega)
  have hcoe : ((m.toNat : Int)) = m := Int.toNat_of_nonneg hm0
  have hlt : m.toNat < 128 := by omega
  have h8 : (natToBytesBE 8 size).length = 8 := natToBytesBE_length 8 _
  have hrt : bytesToNatBE (natToBytesBE 8 size) = size :=
    bytesToNatBE_natToBytesBE 8 _
      (by rw [show (256 : Nat) ^ 8 = 2 ^ 64 from by norm_num]; exact hs)
  simp [decode_header, header_bytes, unpack_bQ, hemod, h8, hrt, hlt, hcoe, hv]

/-- C8: for every trust mode in 1, 2, 4, 6 and every payload (any
length below 2 to the 64, including zero), the framing of send_cmd
produces a header of exactly 9 bytes (the mode byte, then the payload
length big-endian on 8 bytes) followed by the payload, and the header
decoding of read_commands yields back the mode and the payload
length. -/
theorem frame_roundtrip (modeValue : Int) (hm : modeValue ∈ ([1, 2, 4, 6] : List Int))
    (payload : List Nat) (hlen : payload.length < 2 ^ 64) :
    encode_frame modeValue payload = some (header_bytes modeValue payload.length ++ payload) ∧
    (header_bytes modeValue payload.length).length = 9 ∧
    decode_header (header_bytes modeValue payload.length) = some (modeValue, payload.length) := by
  have h8 : (natToBytesBE 8 payload.length).length = 8 := natToBytesBE_length 8 _
  have hlen18 : payload.length < 18446744073709551616 := by
    calc payload.length < 2 ^ 64 := hlen
      _ = 18446744073709551616 := by norm_num
  fin_cases hm <;>
    exact ⟨by simp [encode_frame, pack_bQ, header_bytes, hlen, hlen18],
      by simp [header_bytes, h8],
      decode_header_of_header_bytes _ (by norm_num) (by norm_num) (by decide) _ hlen⟩

/-- C8 witness: mode 2 with a two-byte payload round-trips, with each
hypothesis checked at the concrete input. -/
theorem frame_roundtrip_witness :
    ((2 : Int) ∈ ([1, 2, 4, 6] : List Int)) ∧ ([10, 20] : List Nat).length < 2 ^ 64 ∧
    decode_header (header_bytes 2 2) = some (2, 2) :=
  ⟨by decide, by decide, (frame_roundtrip 2 (by decide) [10, 20] (by decide)).2.2⟩

/-- C5 counterexample: an EOF-truncated header read (the
IncompleteReadError clause) enqueues the close sentinel and stops, but
does not invoke the error_read hook, refuting the claim that every
non-cancellation header failure invokes error_read. -/
theorem read_header_truncation_no_hook :
    (read_header_phase ReadOutcome.incompleteRead).2 = [Effect.qput none] ∧
    Effect.hook "error_read" ∉ (read_header_phase ReadOutcome.incompleteRead).2 := by
  exact ⟨rfl, by simp [read_header_phase]⟩

/-- C5 amended: a connection error while reading the 9-byte header
enqueues the close sentinel, invokes error_read and stops; cooperative
cancellation and truncation (EOF) enqueue the sentinel and stop
without invoking the hook; any other read exception logs it and
invokes error_read but stops without enqueuing the sentinel; a header
that unpack rejects enqueues the sentinel and stops without the hook;
an unrecognized mode byte logs an error, enqueues the sentinel,
invokes error_read and stops. -/
theorem read_header_failure_modes :
    read_header_phase .connError = (.stop, [.qput none, .hook "error_read"]) ∧
    read_header_phase .cancelled = (.stop, [.qput none]) ∧
    read_header_phase .incompleteRead = (.stop, [.qput none]) ∧
    read_header_phase .otherExc = (.stop, [.logException, .hook "error_read"]) ∧
    (∀ bs, unpack_bQ bs = none → read_header_phase (.ok bs) = (.stop, [.qput none])) ∧
    (∀ bs flag size, unpack_bQ bs = some (flag, size) → validFlag flag = false →
      read_header_phase (.ok bs) = (.stop, [.logError, .qput none, .hook "error_read"])) := by
  refine ⟨rfl, rfl, rfl, rfl, ?_, ?_⟩
  · intro bs h
    simp [read_header_phase, h]
  · intro bs flag size h hv
    simp [read_header_phase, h, hv]

/-- C5 witness: the malformed-header case at the empty byte string and
the unrecognized-mode case at flag 3, hypotheses checked concretely. -/
theorem read_header_failure_modes_witness :
    unpack_bQ [] = none ∧
    read_header_phase (.ok []) = (.stop, [.qput none]) ∧
    unpack_bQ [3, 0, 0, 0, 0, 0, 0, 0, 0] = some (3, 0) ∧
    validFlag 3 = false ∧
    read_header_phase (.ok [3, 0, 0, 0, 0, 0, 0, 0, 0]) =
      (.stop, [.logError, .qput none, .hook "error_read"]) :=
  ⟨rfl, read_header_failure_modes.2.2.2.2.1 [] rfl, rfl, rfl,
    read_header_failure_modes.2.2.2.2.2 [3, 0, 0, 0, 0, 0, 0, 0, 0] 3 0 rfl rfl⟩

/-- C4 counterexample: a handler that raises cooperative cancellation
is caught by the except-CancelledError-pass clause of process_command;
nothing escapes the dispatch (and nothing is logged), refuting the
claim that cancellation propagates cleanly out of the dispatch. -/
theorem handler_cancellation_swallowed :
    (process_command [] (fun _ => some .cancelled) "ping" 0 (.dict [])).escaped = none ∧
    (process_command [] (fun _ => some .cancelled) "ping" 0 (.dict [])).effects =
      [.handlerCall "ping" 0 (.dict [])] :=
  ⟨rfl, rfl⟩

/-- C4 amended: no exception raised by a handler ever escapes
process_command into the reader loop — cooperative cancellation is
caught and swallowed silently (handler call only, no log), and any
other exception is caught and logged; in every case the dispatch
returns normally, so the loop continues and the connection stays
open. -/
theorem handler_errors_isolated (answers : AnswerTable)
    (resolve : String → Option HandlerOutcome) (cmd : String) (cmdId : Int) (kwargs : PyVal) :
    (process_command answers resolve cmd cmdId kwargs).escaped = none ∧
    (cmd ≠ "answer" → resolve cmd = some .cancelled →
      (process_command answers resolve cmd cmdId kwargs).effects =
        [.handlerCall cmd cmdId kwargs]) ∧
    (cmd ≠ "answer" → resolve cmd = some .raised →
      (process_command answers resolve cmd cmdId kwargs).effects =
        [.handlerCall cmd cmdId kwargs, .logException]) := by
  refine ⟨?_, ?_, ?_⟩
  · by_cases h : cmd = "answer"
    · simp [process_command, h]
    · rcases hr : resolve cmd with _ | o
      · simp [process_command, h, hr]
      · cases o <;> simp [process_command, h, hr]
  · intro h hr
    simp [process_command, h, hr]
  · intro h hr
    simp [process_command, h, hr]

/-- C4 amended witness: a handler raising an ordinary exception at a
concrete input is caught and logged, and nothing escapes. -/
theorem handler_errors_isolated_witness :
    (process_command [] (fun _ => some .raised) "ping" 1 (.dict [])).escaped = none ∧
    (process_command [] (fun _ => some .raised) "ping" 1 (.dict [])).effects =
      [.handlerCall "ping" 1 (.dict []), .logException] :=
  ⟨(handler_errors_isolated [] (fun _ => some .raised) "ping" 1 (.dict [])).1,
    (handler_errors_isolated [] (fun _ => some .raised) "ping" 1 (.dict [])).2.2
      (by decide) rfl⟩

/-- C6: processing a command named "answer" stores its argument
mapping in the correlation table under the command id, overwriting any
prior pending value for that id; the dispatcher produces no effects
(in particular no handler call and no log), and the outcome does not
depend on handler resolution at all, so no handler lookup or
invocation happens. -/
theorem answer_consumed_by_correlation (answers : AnswerTable)
    (resolve : String → Option HandlerOutcome) (cmdId : Int) (kwargs : PyVal) :
    process_command answers resolve "answer" cmdId kwargs =
      { answers := insertAnswer cmdId kwargs answers, effects := [], escaped := none } ∧
    lookupAnswer cmdId (process_command answers resolve "answer" cmdId kwargs).answers =
      some kwargs ∧
    (∀ resolveB, process_command answers resolve "answer" cmdId kwargs =
      process_command answers resolveB "answer" cmdId kwargs) := by
  refine ⟨rfl, ?_, fun _ => rfl⟩
  simpa [process_command] using lookupAnswer_insertAnswer_self cmdId kwargs answers

/-- C7: any decoded object that fails the shape validation chain is
dropped by parse_and_process_command: the queue and the correlation
table are untouched (nothing is enqueued, nothing dispatched), the
only effect is a single debug log (no hook), and nothing escapes, so
the reader loop continues. -/
theorem invalid_shape_dropped (queue : List (Option PyVal)) (answers : AnswerTable)
    (resolve : String → Option HandlerOutcome) (cmd : PyVal)
    (h : validate_cmd cmd = false) :
    parse_and_process_command queue answers resolve cmd =
      { queue := queue, answers := answers, effects := [.logDebug], escaped := none } := by
  simp [parse_and_process_command, h]

/-- C7 witness: a 2-tuple fails validation and is dropped with only a
debug log. -/
theorem invalid_shape_dropped_witness :
    validate_cmd (.tup [.str "ping", .int 3]) = false ∧
    parse_and_process_command [] [] (fun _ => none) (.tup [.str "ping", .int 3]) =
      { queue := [], answers := [], effects := [.logDebug], escaped := none } :=
  ⟨rfl, invalid_shape_dropped [] [] (fun _ => none) (.tup [.str "ping", .int 3]) rfl⟩

/-- C3: evaluating answer at an origin whose writer is missing: the
warning is logged, but because the method has no early return,
send_cmd is still called on the missing writer; the attribute access
on None raises, landing in the generic except-clause of send_cmd,
which invokes error_write, logs the exception, and re-raises.  So a
send is attempted and an exception escapes, instead of the claimed
log-and-send-nothing.  With a writer present, answer does send
"answer" with id origin.id, as the claim's second half states. -/
theorem answer_missing_writer_still_sends :
    answer 0 { id := 5, reader := some (), writer := none } (.dict []) .ok =
      { effects := [.logWarning, .hook "error_write", .logException],
        raised := true, counter := 0 } ∧
    answer 0 { id := 5, reader := some (), writer := some () } (.dict []) .ok =
      { effects := [.write "answer" 5 (.dict [])], raised := false, counter := 0 } :=
  ⟨rfl, rfl⟩

/-- C2: evaluating wait_for_cmd at a queue that yields the close
sentinel: the walrus while-condition sees the falsy None, exits the
loop without reaching the body's is-None check (which is dead code),
and the function falls off its end, returning bare None rather than
the documented (False, empty-dict) pair.  The general second conjunct
shows this happens whenever the sentinel is dequeued, whatever follows
on the queue. -/
theorem close_sentinel_returns_bare_none :
    wait_for_cmd true [none] true .timeoutFire "ping" = (.pyNone, []) ∧
    (∀ cmdName rest intr hasT,
      wait_for_cmd true (none :: rest) hasT intr cmdName = (.pyNone, rest)) :=
  ⟨rfl, fun _ _ _ _ => rfl⟩

/-- C9: commands dequeued by wait_for_cmd that do not match the
awaited name are permanently consumed: when a matching command follows
a prefix of non-matching (non-sentinel) entries, the wait returns
(True, args-of-the-match) and the queue that remains is exactly the
suffix after the match — the non-matching prefix has been discarded,
never re-queued, and is therefore invisible to every later waiter on
the same queue. -/
theorem nonmatching_commands_consumed (cmdName : String) (pre : List (Option PyVal))
    (c : PyVal) (rest : List (Option PyVal)) (hasT : Bool) (intr : Interrupt)
    (hpre : ∀ x ∈ pre, ∃ r, x = some r ∧ matches_cmd cmdName r = false)
    (hc : matches_cmd cmdName c = true) :
    wait_for_cmd true (pre ++ some c :: rest) hasT intr cmdName =
      (.pair (some true) (pyGet c 2), rest) := by
  induction pre with
  | nil => simp [wait_for_cmd, dequeue_loop, hc]
  | cons x xs ih =>
    have hxs := ih (fun y hy => hpre y (List.mem_cons_of_mem x hy))
    obtain ⟨r, rfl, hr⟩ := hpre x (List.mem_cons_self x xs)
    simpa [wait_for_cmd, dequeue_loop, hr] using hxs

/-- C9 witness: a waiter for "pong" consumes and discards a
non-matching "ping" entry, returns the matching "pong" arguments, and
leaves only the entries after the match on the queue. -/
theorem nonmatching_commands_consumed_witness :
    matches_cmd "pong" (.tup [.str "ping", .int 1, .dict []]) = false ∧
    matches_cmd "pong" (.tup [.str "pong", .int 2, .dict [(.str "a", .int 9)]]) = true ∧
    wait_for_cmd true
      [some (.tup [.str "ping", .int 1, .dict []]),
        some (.tup [.str "pong", .int 2, .dict [(.str "a", .int 9)]]),
        some (.tup [.str "late", .int 3, .dict []])] true .timeoutFire "pong" =
      (.pair (some true) (.dict [(.str "a", .int 9)]),
        [some (.tup [.str "late", .int 3, .dict []])]) := by
  refine ⟨rfl, rfl, ?_⟩
  exact nonmatching_commands_consumed "pong"
    [some (.tup [.str "ping", .int 1, .dict []])]
    (.tup [.str "pong", .int 2, .dict [(.str "a", .int 9)]])
    [some (.tup [.str "late", .int 3, .dict []])] true .timeoutFire
    (by intro x hx
        simp only [List.mem_singleton] at hx
        exact ⟨.tup [.str "ping", .int 1, .dict []], hx, rfl⟩)
    rfl

/-- C10: every shape-valid command — the reserved name "answer"
included — is put on the reader's queue before process_command runs
(the queue-put effect precedes every dispatcher effect, and the queue
ends with the tuple); when the command is an "answer", the correlation
table receives its arguments, and a wait_for_cmd waiter for "answer"
or for "*" can observe and consume the enqueued tuple, getting
(True, args). -/
theorem valid_command_enqueued_before_dispatch (queue : List (Option PyVal))
    (answers : AnswerTable) (resolve : String → Option HandlerOutcome) (cmd : PyVal)
    (h : validate_cmd cmd = true) :
    (parse_and_process_command queue answers resolve cmd).queue = queue ++ [some cmd] ∧
    (parse_and_process_command queue answers resolve cmd).effects =
      Effect.qput (some cmd) ::
        (process_command answers resolve (cmd_name cmd) (cmd_id_val cmd)
          (cmd_args cmd)).effects ∧
    (cmd_name cmd = "answer" →
      (parse_and_process_command queue answers resolve cmd).answers =
        insertAnswer (cmd_id_val cmd) (cmd_args cmd) answers ∧
      (∀ intr, wait_for_cmd true [some cmd] true intr "answer" =
          (.pair (some true) (pyGet cmd 2), []) ∧
        wait_for_cmd true [some cmd] true intr "*" =
          (.pair (some true) (pyGet cmd 2), []))) := by
  have hstr : (pyGet cmd 0).isStr = true := by
    have := h
    simp only [validate_cmd, Bool.and_eq_true] at this
    exact this.1.1.1.2
  have hget0 : pyGet cmd 0 = .str (cmd_name cmd) := pyVal_isStr_eq hstr
  refine ⟨by simp [parse_and_process_command, h], by simp [parse_and_process_command, h], ?_⟩
  intro hname
  have hmatch : pyEqStr (pyGet cmd 0) "answer" = true := by
    rw [hget0, hname]
    simp [pyEqStr]
  refine ⟨?_, ?_⟩
  · simp [parse_and_process_command, h, process_command, hname]
  · intro intr
    constructor
    · simp [wait_for_cmd, dequeue_loop, matches_cmd, hmatch]
    · simp [wait_for_cmd, dequeue_loop, matches_cmd]

/-- C10 witness: a concrete valid answer tuple is enqueued before
dispatch, lands in the correlation table, and is consumable by a
waiter for "answer". -/
theorem valid_command_enqueued_before_dispatch_witness :
    validate_cmd (.tup [.str "answer", .int 7, .dict [(.str "ok", .bool true)]]) = true ∧
    (parse_and_process_command [] [] (fun _ => none)
        (.tup [.str "answer", .int 7, .dict [(.str "ok", .bool true)]])).queue =
      [some (.tup [.str "answer", .int 7, .dict [(.str "ok", .bool true)]])] ∧
    wait_for_cmd true
        [some (.tup [.str "answer", .int 7, .dict [(.str "ok", .bool true)]])]
        true .timeoutFire "answer" =
      (.pair (some true) (.dict [(.str "ok", .bool true)]), []) := by
  refine ⟨rfl, ?_, ?_⟩
  · exact (valid_command_enqueued_before_dispatch [] [] (fun _ => none)
      (.tup [.str "answer", .int 7, .dict [(.str "ok", .bool true)]]) rfl).1
  · exact (((valid_command_enqueued_before_dispatch [] [] (fun _ => none)
      (.tup [.str "answer", .int 7, .dict [(.str "ok", .bool true)]]) rfl).2.2 rfl).2
      .timeoutFire).1

theorem tableAt_zero (t : AnswerTable) (sched : InsertSched) : tableAt t sched 0 = t := rfl

theorem tableAt_cons_succ (t : AnswerTable) (ins : List (Int × PyVal)) (rest : InsertSched)
    (i : Nat) : tableAt t (ins :: rest) (i + 1) = tableAt (applyInserts t ins) rest i := rfl

theorem firstHitIdx_of_hit (cmdId : Int) (t : AnswerTable) (sched : InsertSched)
    (h : (lookupAnswer cmdId t).isSome) : firstHitIdx cmdId t sched = some 0 := by
  unfold firstHitIdx
  rw [List.range_succ_eq_map,
    List.find?_cons_of_pos _ (by simpa [tableAt] using h)]

theorem firstHitIdx_cons_of_miss (cmdId : Int) (t : AnswerTable) (ins : List (Int × PyVal))
    (rest : InsertSched) (h : lookupAnswer cmdId t = none) :
    firstHitIdx cmdId t (ins :: rest) =
      (firstHitIdx cmdId (applyInserts t ins) rest).map (fun i => i + 1) := by
  unfold firstHitIdx
  rw [show (ins :: rest).length + 1 = rest.length + 1 + 1 from rfl,
    List.range_succ_eq_map,
    List.find?_cons_of_neg _ (by simp [tableAt, h]),
    List.find?_map]
  have hfun : ((fun i => (lookupAnswer cmdId (tableAt t (ins :: rest) i)).isSome) ∘ Nat.succ)
      = (fun i => (lookupAnswer cmdId (tableAt (applyInserts t ins) rest i)).isSome) := by
    funext i
    rfl
  rw [hfun]

theorem poll_answers_spec (cmdId : Int) (sched : InsertSched) (t : AnswerTable) :
    match firstHitIdx cmdId t sched with
    | some i => poll_answers cmdId t sched =
        (lookupAnswer cmdId (tableAt t sched i), eraseAnswer cmdId (tableAt t sched i))
    | none => poll_answers cmdId t sched = (none, tableAt t sched sched.length) := by
  induction sched generalizing t with
  | nil =>
    cases hl : lookupAnswer cmdId t with
    | some v =>
      rw [firstHitIdx_of_hit cmdId t [] (by simp [hl])]
      simp [poll_answers, hl, tableAt]
    | none =>
      have hf : firstHitIdx cmdId t [] = none := by
        unfold firstHitIdx
        simp [List.range_succ_eq_map, tableAt, hl]
      rw [hf]
      simp [poll_answers, hl, tableAt]
  | cons ins rest ih =>
    cases hl : lookupAnswer cmdId t with
    | some v =>
      rw [firstHitIdx_of_hit cmdId t (ins :: rest) (by simp [hl])]
      simp [poll_answers, hl, tableAt]
    | none =>
      rw [firstHitIdx_cons_of_miss cmdId t ins rest hl]
      have hrec := ih (applyInserts t ins)
      cases hf : firstHitIdx cmdId (applyInserts t ins) rest with
      | some i =>
        rw [hf] at hrec
        simp only [Option.map_some']
        rw [tableAt_cons_succ]
        simpa [poll_answers, hl] using hrec
      | none =>
        rw [hf] at hrec
        simp only [Option.map_none']
        rw [show tableAt t (ins :: rest) (ins :: rest).length
          = tableAt (applyInserts t ins) rest rest.length from rfl]
        simpa [poll_answers, hl] using hrec

/-- C1: wait_for_answer takes the current counter value as a fresh id
(the counter advances by one), sends the command under exactly that
id, then polls the correlation table for it.  If the table holds an
entry for that id at some poll before the timeout budget runs out
(firstHitIdx), the entry's argument mapping is returned and the entry
is removed from the table at that instant; if no entry under that id
ever appears at a poll, None is returned and the table is left exactly
as the interleaved insertions built it — in particular entries stored
under different ids are untouched. -/
theorem wait_for_answer_correlation (counter : Nat) (answers : AnswerTable)
    (cmdName : String) (args : PyVal) (sched : InsertSched) :
    (wait_for_answer counter answers (some ()) .ok cmdName args sched).sentId
        = Int.ofNat counter ∧
    (wait_for_answer counter answers (some ()) .ok cmdName args sched).counter
        = counter + 1 ∧
    (wait_for_answer counter answers (some ()) .ok cmdName args sched).send.effects
        = [.write cmdName (Int.ofNat counter) args] ∧
    (match firstHitIdx (Int.ofNat counter) answers sched with
      | some i =>
        (wait_for_answer counter answers (some ()) .ok cmdName args sched).result
            = lookupAnswer (Int.ofNat counter) (tableAt answers sched i) ∧
        (wait_for_answer counter answers (some ()) .ok cmdName args sched).answers
            = eraseAnswer (Int.ofNat counter) (tableAt answers sched i)
      | none =>
        (wait_for_answer counter answers (some ()) .ok cmdName args sched).result = none ∧
        (wait_for_answer counter answers (some ()) .ok cmdName args sched).answers
            = tableAt answers sched sched.length) := by
  refine ⟨rfl, rfl, rfl, ?_⟩
  have hs := poll_answers_spec (Int.ofNat counter) sched answers
  cases hf : firstHitIdx (Int.ofNat counter) answers sched with
  | some i =>
    rw [hf] at hs
    have hs2 : poll_answers (Int.ofNat counter) answers sched =
        (lookupAnswer (Int.ofNat counter) (tableAt answers sched i),
          eraseAnswer (Int.ofNat counter) (tableAt answers sched i)) := hs
    constructor
    · show (poll_answers (Int.ofNat counter) answers sched).1
          = lookupAnswer (Int.ofNat counter) (tableAt answers sched i)
      rw [hs2]
    · show (poll_answers (Int.ofNat counter) answers sched).2
          = eraseAnswer (Int.ofNat counter) (tableAt answers sched i)
      rw [hs2]
  | none =>
    rw [hf] at hs
    have hs2 : poll_answers (Int.ofNat counter) answers sched =
        (none, tableAt answers sched sched.length) := hs
    constructor
    · show (poll_answers (Int.ofNat counter) answers sched).1 = none
      rw [hs2]
    · show (poll_answers (Int.ofNat counter) answers sched).2
          = tableAt answers sched sched.length
      rw [hs2]

/-- C1 witness: counter 7 with a pending entry under id 3, the answer
for id 7 arriving during the first sleep: the send carries id 7, the
arrived arguments are returned, and the unrelated entry under id 3 is
still in the table afterwards. -/
theorem wait_for_answer_correlation_witness :
    (wait_for_answer 7 [(3, .pyNone)] (some ()) .ok "ping" (.dict [])
        [[(7, .bool true)]]).result = some (.bool true) ∧
    lookupAnswer 3 (wait_for_answer 7 [(3, .pyNone)] (some ()) .ok "ping" (.dict [])
        [[(7, .bool true)]]).answers = some .pyNone ∧
    (wait_for_answer 7 [(3, .pyNone)] (some ()) .ok "ping" (.dict [])
        [[(7, .bool true)]]).send.effects = [.write "ping" 7 (.dict [])] := by
  have h4 := (wait_for_answer_correlation 7 [(3, .pyNone)] "ping" (.dict [])
    [[(7, .bool true)]]).2.2.2
  have hf : firstHitIdx (Int.ofNat 7) [(3, .pyNone)] [[(7, .bool true)]] = some 1 := rfl
  rw [hf] at h4
  obtain ⟨h1, h2⟩ := h4
  refine ⟨?_, ?_, ?_⟩
  · rw [h1]
    rfl
  · rw [h2]
    rfl
  · exact (wait_for_answer_correlation 7 [(3, .pyNone)] "ping" (.dict [])
      [[(7, .bool true)]]).2.2.1
